import Mathlib

/-!
Verification of the Tympan `SerialManager` (src/SerialManager.h): a line-based
serial command interpreter.  The source is shallowly embedded below:
the 64-byte character buffer becomes a `List Char` of length 64, the C string
handed to `processLine_` becomes the prefix of the buffer before the first NUL,
`Serial` output and the calls into the external device-control collaborators
become an explicit event trace, and the `float` argument values become `ℚ`
(all values exercised here, such as 10 and 25, are exactly representable).
-/

/-- Observable actions of the interpreter: `Serial` prints, and calls into the
external collaborator functions declared `extern` in the source
(`setVolKnobGain_dB`, `printGainSettings`, `togglePrintMemoryAndCPU`,
`setDelay_ms`).  `printFloat v d` stands for `Serial.print(v, d)` printing `v`
with `d` decimal places (Arduino's default is 2 decimals when no second
argument is given, as in `Serial.print(delay_ms)`). -/
inductive Event where
  | print (s : String)
  | println (s : String)
  | printFloat (v : ℚ) (decimals : Nat)
  | printlnChar (c : Char)
  | setVolKnobGain_dB (v : ℚ)
  | printGainSettings
  | togglePrintMemoryAndCPU
  | setDelay_ms (v : ℚ)
  deriving DecidableEq

/-- The external device state (spec §3 DeviceState): gain in dB, delay in ms,
and the CPU/memory diagnostics-printing flag.  It is owned by the main sketch,
not by the interpreter. -/
structure DeviceState where
  vol_knob_gain_dB : ℚ
  delay_ms : ℚ
  printMemoryAndCPU : Bool
  deriving DecidableEq

/-- Modelled from the spec: the device-control collaborators are only declared
`extern` in src/SerialManager.h; their definitions live in the main sketch,
which is not part of this repository.  Per spec §6, `setGainDecibels` and
`setDelayMilliseconds` apply the new value, `toggleDiagnosticsPrinting` flips
the telemetry flag, and the print operations leave device state unchanged. -/
def applyEvent (dev : DeviceState) : Event → DeviceState
  | Event.setVolKnobGain_dB v => { dev with vol_knob_gain_dB := v }
  | Event.setDelay_ms v => { dev with delay_ms := v }
  | Event.togglePrintMemoryAndCPU =>
      { dev with printMemoryAndCPU := !dev.printMemoryAndCPU }
  | _ => dev

/-- C `isspace` in the default locale: space, tab, newline, vertical tab,
form feed, carriage return. -/
def isspaceC (c : Char) : Bool :=
  c == ' ' || c == '\t' || c == '\n' || c == '\x0b' || c == '\x0c' || c == '\r'

/-- The pointer-advancing loop `while (*line && isspace(*line)) line++`. -/
def skipWs (s : List Char) : List Char := s.dropWhile isspaceC

/-- The character content of a C string stored in a buffer: everything before
the first NUL. -/
def cString (buf : List Char) : List Char := buf.takeWhile (fun c => c != '\x00')

/-- Value of a run of decimal digit characters. -/
def digitsToNat (ds : List Char) : Nat :=
  ds.foldl (fun a c => 10 * a + (c.toNat - 48)) 0

/-- Exponent part of `strtof`: an optional sign and a digit run following the
`e`/`E`.  If no digit follows, the exponent (including the `e`) is not
consumed.  `n` is the number of characters consumed so far. -/
def expPart (mant : ℚ) (n : Nat) (t : List Char) : ℚ × Nat :=
  let sgn : Bool × List Char × Nat :=
    match t with
    | c :: u =>
        if c = '+' then (false, u, 1)
        else if c = '-' then (true, u, 1)
        else (false, t, 0)
    | [] => (false, t, 0)
  let ed := sgn.2.1.takeWhile Char.isDigit
  if ed.isEmpty then (mant, n)
  else
    (if sgn.1 then mant / (10 : ℚ) ^ digitsToNat ed
     else mant * (10 : ℚ) ^ digitsToNat ed,
     n + 1 + sgn.2.2 + ed.length)

/-- Model of the C library `strtof(line, &endptr)` on its decimal grammar:
optional sign, a digit sequence optionally containing one decimal point (at
least one digit required), and an optional `e`/`E` exponent.  Returns the
parsed value and the number of characters consumed (`endptr - line`); if no
conversion can be performed the result is `(0, 0)`.  The call site in
`processLine_` has already skipped leading whitespace, so `strtof`'s own
whitespace skipping never fires; the hexadecimal, infinity and NaN forms are
outside the input surface this program exercises. -/
def strtofM (s : List Char) : ℚ × Nat :=
  let sgn : ℚ × List Char × Nat :=
    match s with
    | c :: t =>
        if c = '+' then ((1 : ℚ), t, 1)
        else if c = '-' then ((-1 : ℚ), t, 1)
        else ((1 : ℚ), s, 0)
    | [] => ((1 : ℚ), s, 0)
  let ip := sgn.2.1.takeWhile Char.isDigit
  let s2 := sgn.2.1.dropWhile Char.isDigit
  let fr : List Char × List Char × Nat :=
    match s2 with
    | c :: t =>
        if c = '.' then (t.takeWhile Char.isDigit, t.dropWhile Char.isDigit, 1)
        else (([] : List Char), s2, 0)
    | [] => (([] : List Char), s2, 0)
  if ip.isEmpty && fr.1.isEmpty then ((0 : ℚ), 0)
  else
    let mant : ℚ :=
      sgn.1 * ((digitsToNat ip : ℚ) + (digitsToNat fr.1 : ℚ) / (10 : ℚ) ^ fr.1.length)
    let n := sgn.2.2 + ip.length + fr.2.2 + fr.1.length
    match fr.2.1 with
    | c :: t => if c = 'e' ∨ c = 'E' then expPart mant n t else (mant, n)
    | [] => (mant, n)

/-- Lines 67-74 of the source: the optional numeric argument.  `has_arg` is
set exactly when the remainder is nonempty (`if (*line)`) and `strtof`
consumed at least one character (`endptr != line`). -/
def parseArg (rest : List Char) : Bool × ℚ :=
  match rest with
  | [] => (false, (0 : ℚ))
  | _ :: _ =>
    let r := strtofM rest
    (decide (r.2 ≠ 0), r.1)

/-- The body of `SerialManager::printHelp` (source lines 44-53). -/
def printHelp : List Event :=
  [ Event.println "",
    Event.println "SerialManager Help: Available Commands:",
    Event.println "   h or ?: Print this help",
    Event.println "   g      : Print the current gain and delay settings",
    Event.println "   C      : Toggle printing of CPU and Memory usage",
    Event.println "   k <dB> : Set digital gain in dB (example: k 10)",
    Event.println "   d <ms> : Set delay time in ms (example: d 25)",
    Event.println "" ]

/-- The `switch (cmd)` of `processLine_` (source lines 76-115). -/
def dispatch (dev : DeviceState) (cmd : Char) (has_arg : Bool) (arg : ℚ) :
    List Event :=
  if cmd = 'h' ∨ cmd = '?' then printHelp
  else if cmd = 'g' ∨ cmd = 'G' then
    [Event.printGainSettings, Event.print "Delay = ",
     Event.printFloat dev.delay_ms 2, Event.println " ms"]
  else if cmd = 'C' ∨ cmd = 'c' then
    [Event.println "Command Received: toggle printing of memory and CPU usage.",
     Event.togglePrintMemoryAndCPU]
  else if cmd = 'k' ∨ cmd = 'K' then
    if has_arg then [Event.setVolKnobGain_dB arg]
    else
      [Event.print "Usage: k <dB>   (current = ",
       Event.printFloat dev.vol_knob_gain_dB 1, Event.println " dB)"]
  else if cmd = 'd' ∨ cmd = 'D' then
    if has_arg then [Event.setDelay_ms arg]
    else
      [Event.print "Usage: d <ms>   (current = ",
       Event.printFloat dev.delay_ms 2, Event.println " ms)"]
  else
    [Event.print "Unknown command: ", Event.printlnChar cmd,
     Event.println "Type 'h' for help."]

/-- `SerialManager::processLine_` (source lines 55-116) on the character
content of the line (a C string, hence NUL-free by construction).  Reads the
device state (for the usage messages and the delay display) and returns the
emitted event trace. -/
def processLine_ (dev : DeviceState) (line0 : List Char) : List Event :=
  match skipWs line0 with
  | [] => []
  | cmd :: rest =>
    let a := parseArg (skipWs rest)
    dispatch dev cmd a.1 a.2

/-- The interpreter state: `char cmd_buffer_[64]` as a list of exactly 64
characters, and `uint8_t cmd_len_` as a `Nat` (it never exceeds 63, so the
8-bit wraparound is unreachable). -/
structure SerialManager where
  cmd_buffer_ : List Char
  cmd_len_ : Nat
  deriving DecidableEq

/-- The constructor `SerialManager() : cmd_len_(0) { cmd_buffer_[0] = '\0'; }`.
The C array cells beyond index 0 are uninitialised and never read before being
written; they are modelled as NUL. -/
def SerialManager.init : SerialManager :=
  { cmd_buffer_ := List.replicate 64 '\x00', cmd_len_ := 0 }

/-- `SerialManager::respondToByte` (source lines 118-139).  Returns the new
interpreter state, the device state after any collaborator calls made during
dispatch, and the emitted event trace. -/
def SerialManager.respondToByte (sm : SerialManager) (dev : DeviceState)
    (c : Char) : SerialManager × DeviceState × List Event :=
  if c = '\r' then (sm, dev, [])
  else if c = '\n' then
    let buf := sm.cmd_buffer_.set sm.cmd_len_ '\x00'
    let evs := processLine_ dev (cString buf)
    ({ cmd_buffer_ := buf.set 0 '\x00', cmd_len_ := 0 },
     evs.foldl applyEvent dev, evs)
  else if sm.cmd_len_ < 63 then
    ({ cmd_buffer_ := (sm.cmd_buffer_.set sm.cmd_len_ c).set (sm.cmd_len_ + 1) '\x00',
       cmd_len_ := sm.cmd_len_ + 1 },
     dev, [])
  else
    ({ cmd_buffer_ := sm.cmd_buffer_.set 0 '\x00', cmd_len_ := 0 },
     dev, [Event.println "Command too long. Buffer cleared."])

/-- Feed a sequence of bytes one at a time, threading the interpreter and
device states and concatenating the event traces. -/
def feedBytes (sm : SerialManager) (dev : DeviceState) :
    List Char → SerialManager × DeviceState × List Event
  | [] => (sm, dev, [])
  | c :: cs =>
    let r := sm.respondToByte dev c
    let r2 := feedBytes r.1 r.2.1 cs
    (r2.1, r2.2.1, r.2.2 ++ r2.2.2)

/-- Abstraction of a reachable buffer state: the stored line `pre` occupies the
first `cmd_len_` cells, a NUL terminator sits right after it, and the remaining
cells (old characters or initial fill) are unconstrained junk that is never
read. -/
def stores (sm : SerialManager) (pre : List Char) : Prop :=
  ∃ junk : List Char,
    sm.cmd_buffer_ = pre ++ '\x00' :: junk ∧
    sm.cmd_len_ = pre.length ∧
    pre.length + junk.length = 63

/-- The freshly constructed interpreter stores the empty line. -/
theorem stores_init : stores SerialManager.init [] := by
  refine ⟨List.replicate 63 '\x00', ?_, rfl, by simp⟩
  simp [SerialManager.init, List.replicate_succ]

/-- Writing at the index just past a prefix rewrites the head of the suffix. -/
theorem set_append_length (l₁ l₂ : List Char) (a : Char) :
    (l₁ ++ l₂).set l₁.length a = l₁ ++ l₂.set 0 a := by
  induction l₁ with
  | nil => rfl
  | cons x xs ih => simp [List.set, ih]

/-- A buffer holding a NUL-free line followed by its terminator reads back as
exactly that line. -/
theorem cString_append (pre junk : List Char) (h : ∀ x ∈ pre, x ≠ '\x00') :
    cString (pre ++ '\x00' :: junk) = pre := by
  induction pre with
  | nil => simp [cString, List.takeWhile]
  | cons p ps ih =>
    have hp : (p != '\x00') = true := by
      simpa [bne_iff_ne] using h p (List.mem_cons_self p ps)
    have h2 := ih fun x hx => h x (List.mem_cons_of_mem p hx)
    simpa [cString, List.takeWhile, hp] using h2

/-- Clearing cell 0 of a nonempty buffer yields a NUL-headed buffer of the
same length. -/
theorem set_zero_cons (buf : List Char) (pre junk : List Char) (a : Char)
    (h : buf = pre ++ a :: junk) :
    ∃ junk₂ : List Char, buf.set 0 '\x00' = '\x00' :: junk₂ ∧
      junk₂.length = pre.length + junk.length := by
  cases pre with
  | nil => exact ⟨junk, by simp [h, List.set], by simp⟩
  | cons p ps =>
    refine ⟨ps ++ a :: junk, by simp [h, List.set], ?_⟩
    simp
    omega

/-- Accumulation step: a byte that is neither CR nor newline, fed while the
buffer has room, is appended and produces no output and no device change. -/
theorem respond_plain {sm : SerialManager} {pre : List Char} (dev : DeviceState)
    {c : Char} (hs : stores sm pre) (hlt : pre.length < 63)
    (hcr : c ≠ '\r') (hnl : c ≠ '\n') :
    ∃ sm', sm.respondToByte dev c = (sm', dev, []) ∧ stores sm' (pre ++ [c]) := by
  obtain ⟨junk, hbuf, hlen, htot⟩ := hs
  cases junk with
  | nil => simp at htot; omega
  | cons j js =>
    have hlt2 : sm.cmd_len_ < 63 := by rw [hlen]; exact hlt
    have h1 : sm.cmd_buffer_.set sm.cmd_len_ c = pre ++ c :: j :: js := by
      rw [hbuf, hlen, set_append_length]
      rfl
    have h2 : (pre ++ c :: j :: js).set (sm.cmd_len_ + 1) '\x00' =
        (pre ++ [c]) ++ '\x00' :: js := by
      rw [hlen]
      have h3 : pre ++ c :: j :: js = (pre ++ [c]) ++ j :: js := by simp
      have hl : pre.length + 1 = (pre ++ [c]).length := by simp
      rw [h3, hl, set_append_length]
      rfl
    refine ⟨⟨(pre ++ [c]) ++ '\x00' :: js, sm.cmd_len_ + 1⟩, ?_, ?_⟩
    · simp only [SerialManager.respondToByte, if_neg hcr, if_neg hnl,
        if_pos hlt2, h1, h2]
    · refine ⟨js, rfl, by simp [hlen], ?_⟩
      simp at htot ⊢
      omega

/-- Newline step: the stored line (NUL-free) is handed to the line processor,
its events are applied to the device, and the buffer is reset to empty. -/
theorem respond_newline {sm : SerialManager} {pre : List Char} (dev : DeviceState)
    (hs : stores sm pre) (h0 : ∀ x ∈ pre, x ≠ '\x00') :
    ∃ sm', sm.respondToByte dev '\n' =
      (sm', List.foldl applyEvent dev (processLine_ dev pre), processLine_ dev pre) ∧
      stores sm' [] := by
  obtain ⟨junk, hbuf, hlen, htot⟩ := hs
  have h1 : sm.cmd_buffer_.set sm.cmd_len_ '\x00' = pre ++ '\x00' :: junk := by
    rw [hbuf, hlen, set_append_length]
    rfl
  obtain ⟨junk₂, hj2, hj2len⟩ := set_zero_cons (pre ++ '\x00' :: junk) pre junk '\x00' rfl
  refine ⟨⟨'\x00' :: junk₂, 0⟩, ?_, ?_⟩
  · simp only [SerialManager.respondToByte, if_neg (by decide : ¬('\n' : Char) = '\r'),
      if_pos rfl, if_true, h1, cString_append pre junk h0, hj2]
  · exact ⟨junk₂, rfl, rfl, by simp [hj2len]; omega⟩

/-- Overflow step: a byte that is neither CR nor newline, fed while the buffer
already holds 63 characters, resets the buffer, prints the diagnostic, and is
itself dropped. -/
theorem respond_overflow {sm : SerialManager} {pre : List Char} (dev : DeviceState)
    {c : Char} (hs : stores sm pre) (hl : pre.length = 63)
    (hcr : c ≠ '\r') (hnl : c ≠ '\n') :
    ∃ sm', sm.respondToByte dev c =
      (sm', dev, [Event.println "Command too long. Buffer cleared."]) ∧
      stores sm' [] := by
  obtain ⟨junk, hbuf, hlen, htot⟩ := hs
  have hnlt : ¬sm.cmd_len_ < 63 := by omega
  obtain ⟨junk₂, hj2, hj2len⟩ := set_zero_cons sm.cmd_buffer_ pre junk '\x00' hbuf
  refine ⟨⟨'\x00' :: junk₂, 0⟩, ?_, ?_⟩
  · simp only [SerialManager.respondToByte, if_neg hcr, if_neg hnl,
      if_neg hnlt, hj2]
  · exact ⟨junk₂, rfl, rfl, by simp [hj2len]; omega⟩

/-- Every byte, of any value, keeps the interpreter in a state that stores
some line. -/
theorem respond_stores {sm : SerialManager} {pre : List Char} (dev : DeviceState)
    (c : Char) (hs : stores sm pre) :
    ∃ pre', stores (sm.respondToByte dev c).1 pre' := by
  by_cases hcr : c = '\r'
  · subst hcr
    exact ⟨pre, by simpa [SerialManager.respondToByte] using hs⟩
  by_cases hnl : c = '\n'
  · subst hnl
    obtain ⟨junk, hbuf, hlen, htot⟩ := hs
    have h1 : sm.cmd_buffer_.set sm.cmd_len_ '\x00' = pre ++ '\x00' :: junk := by
      rw [hbuf, hlen, set_append_length]
      rfl
    obtain ⟨junk₂, hj2, hj2len⟩ := set_zero_cons (pre ++ '\x00' :: junk) pre junk '\x00' rfl
    refine ⟨[], junk₂, ?_, rfl, by simp [hj2len]; omega⟩
    simp [SerialManager.respondToByte, h1, hj2]
  obtain ⟨junk, hbuf, hlen, htot⟩ := hs
  by_cases hlt : pre.length < 63
  · obtain ⟨sm', he, hs'⟩ := respond_plain dev ⟨junk, hbuf, hlen, htot⟩ hlt hcr hnl
    exact ⟨pre ++ [c], by rw [he]; exact hs'⟩
  · obtain ⟨sm', he, hs'⟩ :=
      respond_overflow dev ⟨junk, hbuf, hlen, htot⟩ (by omega) hcr hnl
    exact ⟨[], by rw [he]; exact hs'⟩

/-- Feeding a concatenation is feeding the parts in sequence; the traces
concatenate. -/
theorem feedBytes_append (xs ys : List Char) (sm : SerialManager) (dev : DeviceState) :
    feedBytes sm dev (xs ++ ys) =
      ((feedBytes (feedBytes sm dev xs).1 (feedBytes sm dev xs).2.1 ys).1,
       (feedBytes (feedBytes sm dev xs).1 (feedBytes sm dev xs).2.1 ys).2.1,
       (feedBytes sm dev xs).2.2 ++
         (feedBytes (feedBytes sm dev xs).1 (feedBytes sm dev xs).2.1 ys).2.2) := by
  induction xs generalizing sm dev with
  | nil => simp [feedBytes]
  | cons c cs ih => simp [feedBytes, ih]

/-- Feeding plain characters that fit in the buffer appends them all, silently. -/
theorem feed_plain (cs : List Char) {sm : SerialManager} {pre : List Char}
    (dev : DeviceState) (hs : stores sm pre)
    (hlen : pre.length + cs.length ≤ 63)
    (hcs : ∀ x ∈ cs, x ≠ '\r' ∧ x ≠ '\n') :
    ∃ sm', feedBytes sm dev cs = (sm', dev, []) ∧ stores sm' (pre ++ cs) := by
  induction cs generalizing sm pre with
  | nil => exact ⟨sm, by simp [feedBytes], by simpa using hs⟩
  | cons c cs ih =>
    have hc := hcs c (List.mem_cons_self c cs)
    obtain ⟨sm1, he1, hs1⟩ := respond_plain dev hs (by simp at hlen; omega) hc.1 hc.2
    obtain ⟨sm', he', hs'⟩ := ih hs1 (by simp at hlen ⊢; omega)
      (fun x hx => hcs x (List.mem_cons_of_mem c hx))
    refine ⟨sm', ?_, by simpa using hs'⟩
    simp [feedBytes, he1, he']

/-- Any byte sequence leaves the interpreter storing some line. -/
theorem feed_stores (bytes : List Char) {sm : SerialManager} {pre : List Char}
    (dev : DeviceState) (hs : stores sm pre) :
    ∃ pre', stores (feedBytes sm dev bytes).1 pre' := by
  induction bytes generalizing sm dev pre with
  | nil => exact ⟨pre, by simpa [feedBytes] using hs⟩
  | cons c cs ih =>
    obtain ⟨pre1, hs1⟩ := respond_stores dev c hs
    obtain ⟨pre', hs'⟩ := ih ((sm.respondToByte dev c).2.1) hs1
    exact ⟨pre', by simpa [feedBytes] using hs'⟩

/-- Indexing just past a prefix reads the head of the suffix. -/
theorem get?_append_length (l₁ l₂ : List Char) (a : Char) :
    (l₁ ++ a :: l₂).get? l₁.length = some a := by
  induction l₁ with
  | nil => rfl
  | cons x xs ih => simpa using ih

/-- C3: after construction and after any sequence of `respondToByte` calls
(arbitrary byte values), the stored length is at most 63 = capacity − 1, the
buffer still has its 64 cells, and the cell at index `cmd_len_` holds the NUL
terminator, so the buffer always reads back as a valid string. -/
theorem c3_buffer_invariant (bytes : List Char) (dev : DeviceState) :
    (feedBytes SerialManager.init dev bytes).1.cmd_len_ ≤ 63 ∧
    (feedBytes SerialManager.init dev bytes).1.cmd_buffer_.length = 64 ∧
    (feedBytes SerialManager.init dev bytes).1.cmd_buffer_.get?
      (feedBytes SerialManager.init dev bytes).1.cmd_len_ = some '\x00' := by
  obtain ⟨pre, junk, hbuf, hlen, htot⟩ := feed_stores bytes dev stores_init
  refine ⟨by omega, ?_, ?_⟩
  · rw [hbuf]
    simp
    omega
  · rw [hbuf, hlen]
    exact get?_append_length pre junk '\x00'

/-- Dropping carriage returns from the input leaves the interpreter's entire
behaviour (final states and trace) unchanged. -/
theorem cr_filter (bytes : List Char) (sm : SerialManager) (dev : DeviceState) :
    feedBytes sm dev bytes = feedBytes sm dev (bytes.filter (fun c => c != '\r')) := by
  induction bytes generalizing sm dev with
  | nil => rfl
  | cons c cs ih =>
    by_cases hc : c = '\r'
    · subst hc
      have h : sm.respondToByte dev '\r' = (sm, dev, []) := rfl
      simp [feedBytes, h, List.filter_cons, ih]
    · have hb : (c != '\r') = true := by simp [bne_iff_ne, hc]
      have hf : List.filter (fun x => x != '\r') (c :: cs) =
          c :: List.filter (fun x => x != '\r') cs := by
        simp [List.filter_cons, hb]
      rw [hf]
      simp only [feedBytes]
      rw [ih]

/-- C7: a carriage return leaves the interpreter state and the device state
unchanged and prints nothing; consequently any input behaves exactly like the
same input with every carriage return removed, so CR characters never enter
the accumulated line and never count toward the length limit. -/
theorem c7_carriage_return (sm : SerialManager) (dev : DeviceState) (bytes : List Char) :
    sm.respondToByte dev '\r' = (sm, dev, []) ∧
    feedBytes sm dev bytes = feedBytes sm dev (bytes.filter (fun c => c != '\r')) :=
  ⟨rfl, cr_filter bytes sm dev⟩

/-- C2: from an empty buffer, 63 plain characters followed by a 64th plain
character overflow: the diagnostic is printed, the buffer is reset to the
empty string, the 64th character is dropped, and the device is untouched;
whereas 63 plain characters followed by a newline dispatch the full
63-character line to the line parser.  Plain means neither the newline line
terminator, nor CR, nor the NUL string terminator. -/
theorem c2_overflow_boundary (dev : DeviceState) (cs : List Char) (c : Char)
    (hlen : cs.length = 63)
    (hcs : ∀ x ∈ cs, x ≠ '\n' ∧ x ≠ '\r' ∧ x ≠ '\x00')
    (hc1 : c ≠ '\n') (hc2 : c ≠ '\r') :
    ((feedBytes SerialManager.init dev (cs ++ [c])).2.2 =
        [Event.println "Command too long. Buffer cleared."] ∧
      (feedBytes SerialManager.init dev (cs ++ [c])).1.cmd_len_ = 0 ∧
      cString (feedBytes SerialManager.init dev (cs ++ [c])).1.cmd_buffer_ = [] ∧
      (feedBytes SerialManager.init dev (cs ++ [c])).2.1 = dev) ∧
    (feedBytes SerialManager.init dev (cs ++ ['\n'])).2.2 = processLine_ dev cs := by
  obtain ⟨sm1, he1, hs1⟩ := feed_plain cs dev stores_init (by simp [hlen])
    (fun x hx => ⟨(hcs x hx).2.1, (hcs x hx).1⟩)
  have hs1' : stores sm1 cs := hs1
  constructor
  · obtain ⟨sm2, he2, hs2⟩ := respond_overflow dev hs1' hlen hc2 hc1
    have hone : feedBytes sm1 dev [c] =
        (sm2, dev, [Event.println "Command too long. Buffer cleared."]) := by
      simp [feedBytes, he2]
    rw [feedBytes_append cs [c], he1]
    obtain ⟨junk₂, hbuf2, hlen2, _⟩ := hs2
    simp [hone, hlen2, hbuf2, cString, List.takeWhile]
  · obtain ⟨sm3, he3, hs3⟩ := respond_newline dev hs1' (fun x hx => (hcs x hx).2.2)
    have hone : feedBytes sm1 dev ['\n'] =
        (sm3, List.foldl applyEvent dev (processLine_ dev cs), processLine_ dev cs) := by
      simp [feedBytes, he3]
    rw [feedBytes_append cs ['\n'], he1]
    simp [hone]

/-- C10: after a mid-line overflow reset, the rest of the oversized line keeps
accumulating into the freshly emptied buffer and is dispatched at the next
newline as a command line of its own: the whole trace is the overflow
diagnostic followed by the dispatch of the tail, and the device-state change
is exactly the tail line's. -/
theorem c10_overflow_tail_dispatch (dev : DeviceState) (head tail : List Char) (c : Char)
    (hh : head.length = 63) (hhc : ∀ x ∈ head, x ≠ '\n' ∧ x ≠ '\r')
    (hc1 : c ≠ '\n') (hc2 : c ≠ '\r')
    (htc : ∀ x ∈ tail, x ≠ '\n' ∧ x ≠ '\r' ∧ x ≠ '\x00') (htl : tail.length ≤ 63) :
    (feedBytes SerialManager.init dev (head ++ c :: (tail ++ ['\n']))).2.2 =
      Event.println "Command too long. Buffer cleared." :: processLine_ dev tail ∧
    (feedBytes SerialManager.init dev (head ++ c :: (tail ++ ['\n']))).2.1 =
      List.foldl applyEvent dev (processLine_ dev tail) := by
  obtain ⟨sm1, he1, hs1⟩ := feed_plain head dev stores_init (by simp [hh])
    (fun x hx => ⟨(hhc x hx).2, (hhc x hx).1⟩)
  have hs1' : stores sm1 head := hs1
  obtain ⟨sm2, he2, hs2⟩ := respond_overflow dev hs1' hh hc2 hc1
  obtain ⟨sm3, he3, hs3⟩ := feed_plain tail dev hs2 (by simpa using htl)
    (fun x hx => ⟨(htc x hx).2.1, (htc x hx).1⟩)
  have hs3' : stores sm3 tail := hs3
  obtain ⟨sm4, he4, hs4⟩ := respond_newline dev hs3' (fun x hx => (htc x hx).2.2)
  have hsplit : head ++ c :: (tail ++ ['\n']) = head ++ [c] ++ (tail ++ ['\n']) := by simp
  have hone : feedBytes sm1 dev [c] =
      (sm2, dev, [Event.println "Command too long. Buffer cleared."]) := by
    simp [feedBytes, he2]
  have honeN : feedBytes sm3 dev ['\n'] =
      (sm4, List.foldl applyEvent dev (processLine_ dev tail), processLine_ dev tail) := by
    simp [feedBytes, he4]
  rw [hsplit, feedBytes_append (head ++ [c]) (tail ++ ['\n']),
    feedBytes_append head [c], he1]
  simp only [hone]
  rw [feedBytes_append tail ['\n'], he3]
  simp [honeN]

/-- Printing the gain and delay status does not change the device state. -/
theorem g_dev (dev : DeviceState) :
    List.foldl applyEvent dev (processLine_ dev ['g']) = dev := rfl

/-- From any state storing an empty line, n repetitions of the line `g` emit
n identical copies of the status batch and leave the device unchanged. -/
theorem g_rep_aux (n : Nat) {sm : SerialManager} (dev : DeviceState) (hs : stores sm []) :
    (feedBytes sm dev (List.flatten (List.replicate n ['g', '\n']))).2.2 =
      List.flatten (List.replicate n (processLine_ dev ['g'])) ∧
    (feedBytes sm dev (List.flatten (List.replicate n ['g', '\n']))).2.1 = dev := by
  induction n generalizing sm with
  | zero => simp [feedBytes]
  | succ n ih =>
    obtain ⟨sm1, he1, hs1⟩ :=
      respond_plain (c := 'g') dev hs (by decide) (by decide) (by decide)
    have hs1' : stores sm1 ['g'] := hs1
    obtain ⟨sm2, he2, hs2⟩ := respond_newline dev hs1' (by decide)
    have hjoin : List.flatten (List.replicate (n + 1) (['g', '\n'] : List Char)) =
        ['g', '\n'] ++ List.flatten (List.replicate n ['g', '\n']) := by
      simp [List.replicate_succ]
    have htwo : feedBytes sm dev ['g', '\n'] = (sm2, dev, processLine_ dev ['g']) := by
      simp [feedBytes, he1, he2, g_dev dev]
    rw [hjoin, feedBytes_append]
    simp only [htwo]
    obtain ⟨ha, hb⟩ := ih hs2
    simp [List.replicate_succ, ha, hb]

/-- C9: repeating the line `g` any number of times from a fresh interpreter
produces the identical status output on every repetition (the whole trace is
n copies of the one-repetition batch) and never changes the device state, so
no state-changing command intervenes. -/
theorem c9_g_idempotent (n : Nat) (dev : DeviceState) :
    (feedBytes SerialManager.init dev (List.flatten (List.replicate n ['g', '\n']))).2.2 =
      List.flatten (List.replicate n (processLine_ dev ['g'])) ∧
    (feedBytes SerialManager.init dev (List.flatten (List.replicate n ['g', '\n']))).2.1 = dev :=
  g_rep_aux n dev stores_init

/-- C1, counterexample: the claim is false for the help command.  The source
pairs `case 'h'` with `case '?'` — not with `'H'` — so the line `H` does not
dispatch like `h`: it prints the unknown-command message instead of the help
text. -/
theorem c1_uppercase_h_counterexample :
    processLine_ ⟨0, 0, false⟩ ['H'] ≠ processLine_ ⟨0, 0, false⟩ ['h'] := by
  simp [processLine_, skipWs, parseArg, dispatch, printHelp, isspaceC]

/-- C1, amended: the four commands g, c, k, d are case-insensitive — on every
line the uppercase letter dispatches exactly like the lowercase one, and in
particular `D 25` behaves identically to `d 25` — while the help command
pairs `h` with `?` instead of `H`, and the line `H` produces the
unknown-command message. -/
theorem c1_case_pairs (dev : DeviceState) (rest : List Char) :
    processLine_ dev ('G' :: rest) = processLine_ dev ('g' :: rest) ∧
    processLine_ dev ('C' :: rest) = processLine_ dev ('c' :: rest) ∧
    processLine_ dev ('K' :: rest) = processLine_ dev ('k' :: rest) ∧
    processLine_ dev ('D' :: rest) = processLine_ dev ('d' :: rest) ∧
    processLine_ dev ('?' :: rest) = processLine_ dev ('h' :: rest) ∧
    (feedBytes SerialManager.init dev ['D', ' ', '2', '5', '\n']).2 =
      (feedBytes SerialManager.init dev ['d', ' ', '2', '5', '\n']).2 ∧
    processLine_ dev ['H'] =
      [Event.print "Unknown command: ", Event.printlnChar 'H',
       Event.println "Type 'h' for help."] :=
  ⟨rfl, rfl, rfl, rfl, rfl, rfl, rfl⟩

/-- Evaluation of the strtof model on the digits `10`. -/
theorem strtof_ten : strtofM ['1', '0'] = ((10 : ℚ), 2) := by
  simp [strtofM, List.takeWhile, List.dropWhile, digitsToNat]

/-- Evaluation of the strtof model on `10abc`: the value 10 is parsed and
exactly the two digits are consumed. -/
theorem strtof_ten_abc : strtofM ['1', '0', 'a', 'b', 'c'] = ((10 : ℚ), 2) := by
  simp [strtofM, List.takeWhile, List.dropWhile, digitsToNat]

/-- C4: the line `k 10` calls the gain setter with 10 dB (and only that), so
the device gain becomes 10; the line `k` with no argument calls no setter,
leaves the device unchanged, and prints the usage message showing the current
gain to one decimal place. -/
theorem c4_gain_command (dev : DeviceState) :
    processLine_ dev ['k', ' ', '1', '0'] = [Event.setVolKnobGain_dB 10] ∧
    List.foldl applyEvent dev (processLine_ dev ['k', ' ', '1', '0']) =
      { dev with vol_knob_gain_dB := 10 } ∧
    processLine_ dev ['k'] =
      [Event.print "Usage: k <dB>   (current = ",
       Event.printFloat dev.vol_knob_gain_dB 1, Event.println " dB)"] ∧
    List.foldl applyEvent dev (processLine_ dev ['k']) = dev := by
  have h : processLine_ dev ['k', ' ', '1', '0'] = [Event.setVolKnobGain_dB 10] := by
    simp [processLine_, skipWs, parseArg, List.dropWhile, isspaceC, strtof_ten, dispatch]
  exact ⟨h, by rw [h]; rfl, rfl, rfl⟩

/-- C5: an argument is considered present exactly when the numeric parse
starting at the first non-whitespace position after the command letter
consumes at least one character, and trailing non-numeric text is silently
ignored: `k 10abc` sets the gain to 10 with no diagnostic of any kind. -/
theorem c5_arg_presence (dev : DeviceState) (args : List Char) :
    ((parseArg (skipWs args)).1 = true ↔ 1 ≤ (strtofM (skipWs args)).2) ∧
    processLine_ dev ['k', ' ', '1', '0', 'a', 'b', 'c'] = [Event.setVolKnobGain_dB 10] ∧
    List.foldl applyEvent dev (processLine_ dev ['k', ' ', '1', '0', 'a', 'b', 'c']) =
      { dev with vol_knob_gain_dB := 10 } := by
  have h : processLine_ dev ['k', ' ', '1', '0', 'a', 'b', 'c'] =
      [Event.setVolKnobGain_dB 10] := by
    simp [processLine_, skipWs, parseArg, List.dropWhile, isspaceC, strtof_ten_abc, dispatch]
  refine ⟨?_, h, by rw [h]; rfl⟩
  cases hsw : skipWs args with
  | nil => decide
  | cons x xs =>
    simp [parseArg]
    omega

/-- C6: a line whose command letter is none of the recognized ones prints the
unknown-command message echoing that exact character plus the help hint, makes
no collaborator call, and leaves the device state unchanged. -/
theorem c6_unknown_command (dev : DeviceState) (c : Char) (rest : List Char)
    (hws : isspaceC c = false)
    (hcmd : c ∉ (['h', '?', 'g', 'G', 'C', 'c', 'k', 'K', 'd', 'D'] : List Char)) :
    processLine_ dev (c :: rest) =
      [Event.print "Unknown command: ", Event.printlnChar c,
       Event.println "Type 'h' for help."] ∧
    List.foldl applyEvent dev (processLine_ dev (c :: rest)) = dev := by
  simp only [List.mem_cons, not_or] at hcmd
  obtain ⟨h1, h2, h3, h4, h5, h6, h7, h8, h9, h10, -⟩ := hcmd
  have h : processLine_ dev (c :: rest) =
      [Event.print "Unknown command: ", Event.printlnChar c,
       Event.println "Type 'h' for help."] := by
    simp [processLine_, skipWs, List.dropWhile, hws, dispatch,
      h1, h2, h3, h4, h5, h6, h7, h8, h9, h10]
  exact ⟨h, by rw [h]; rfl⟩

/-- C6 witness: the concrete line `x`. -/
theorem c6_unknown_command_witness :
    processLine_ ⟨0, 0, false⟩ ['x'] =
      [Event.print "Unknown command: ", Event.printlnChar 'x',
       Event.println "Type 'h' for help."] ∧
    List.foldl applyEvent ⟨0, 0, false⟩ (processLine_ ⟨0, 0, false⟩ ['x']) =
      (⟨0, 0, false⟩ : DeviceState) :=
  c6_unknown_command ⟨0, 0, false⟩ 'x' [] (by decide) (by decide)

/-- C8: a line that is empty or all whitespace dispatches no events (no
output, no collaborator call) and leaves the device unchanged; the newline
that ended it still resets the buffer to length 0 as for any line. -/
theorem c8_blank_line (dev : DeviceState) (line : List Char) (sm : SerialManager)
    (hws : ∀ x ∈ line, isspaceC x = true) :
    processLine_ dev line = [] ∧
    List.foldl applyEvent dev (processLine_ dev line) = dev ∧
    (sm.respondToByte dev '\n').1.cmd_len_ = 0 := by
  have hsw : skipWs line = [] := List.dropWhile_eq_nil_iff.mpr hws
  have h : processLine_ dev line = [] := by simp [processLine_, hsw]
  refine ⟨h, by rw [h]; rfl, ?_⟩
  simp [SerialManager.respondToByte]

/-- C8 witness: the concrete whitespace-only line of three spaces. -/
theorem c8_blank_line_witness :
    processLine_ ⟨0, 0, false⟩ [' ', ' ', ' '] = [] ∧
    List.foldl applyEvent ⟨0, 0, false⟩ (processLine_ ⟨0, 0, false⟩ [' ', ' ', ' ']) =
      (⟨0, 0, false⟩ : DeviceState) ∧
    (SerialManager.init.respondToByte ⟨0, 0, false⟩ '\n').1.cmd_len_ = 0 :=
  c8_blank_line ⟨0, 0, false⟩ [' ', ' ', ' '] SerialManager.init (by decide)

/-- C2 witness: 63 letters `a` followed by `b` (overflow) and by newline
(dispatch). -/
theorem c2_overflow_boundary_witness :
    ((feedBytes SerialManager.init ⟨0, 0, false⟩ (List.replicate 63 'a' ++ ['b'])).2.2 =
        [Event.println "Command too long. Buffer cleared."] ∧
      (feedBytes SerialManager.init ⟨0, 0, false⟩ (List.replicate 63 'a' ++ ['b'])).1.cmd_len_ = 0 ∧
      cString (feedBytes SerialManager.init ⟨0, 0, false⟩
        (List.replicate 63 'a' ++ ['b'])).1.cmd_buffer_ = [] ∧
      (feedBytes SerialManager.init ⟨0, 0, false⟩ (List.replicate 63 'a' ++ ['b'])).2.1 =
        (⟨0, 0, false⟩ : DeviceState)) ∧
    (feedBytes SerialManager.init ⟨0, 0, false⟩ (List.replicate 63 'a' ++ ['\n'])).2.2 =
      processLine_ ⟨0, 0, false⟩ (List.replicate 63 'a') :=
  c2_overflow_boundary ⟨0, 0, false⟩ (List.replicate 63 'a') 'b'
    (by decide) (by decide) (by decide) (by decide)

/-- C10 witness: 63 letters `a`, an overflowing `b`, then the tail line `g`. -/
theorem c10_overflow_tail_dispatch_witness :
    (feedBytes SerialManager.init ⟨0, 0, false⟩
        (List.replicate 63 'a' ++ 'b' :: (['g'] ++ ['\n']))).2.2 =
      Event.println "Command too long. Buffer cleared." ::
        processLine_ ⟨0, 0, false⟩ ['g'] ∧
    (feedBytes SerialManager.init ⟨0, 0, false⟩
        (List.replicate 63 'a' ++ 'b' :: (['g'] ++ ['\n']))).2.1 =
      List.foldl applyEvent ⟨0, 0, false⟩ (processLine_ ⟨0, 0, false⟩ ['g']) :=
  c10_overflow_tail_dispatch ⟨0, 0, false⟩ (List.replicate 63 'a') ['g'] 'b'
    (by decide) (by decide) (by decide) (by decide) (by decide) (by decide)
